import Mathlib

/-!
Verification of the apollo-server full-query-cache plugin
(packages/apollo-server-plugin-full-query-cache/src/ApolloServerPluginFullQueryCache.ts).

The development shallowly embeds the plugin: JavaScript values that can reach
JSON.stringify are modelled by the inductive type Json (with a constructor for
the JavaScript undefined value), JSON.stringify and JSON.parse are modelled by
executable functions, the sha256 hex digest used by the sources sha helper is
implemented over Nat with explicit reduction modulo 2 ^ 32, and the request
listener hooks (execute and willSendResponse) become pure functions that
return the list of key-value-store operations they perform together with
their result.  The backing store is a function from keys to optional string
values; a PrefixingKeyValueCache with prefix "fqc:" wraps it, so the keys
recorded in the traces are the keys seen by the underlying store.
-/

set_option autoImplicit false

/-- JavaScript values reachable by the plugin when it builds and serializes
cache keys.  The undef constructor models the JavaScript undefined value
(JSON.stringify drops object members whose value is undefined). -/
inductive Json where
  | undef
  | null
  | bool (b : Bool)
  | num (n : Int)
  | str (s : String)
  | arr (elems : List Json)
  | obj (fields : List (String × Json))

/-- Lowercase hexadecimal digit for a nibble, as produced by the Node digest
with hex encoding and by JSON.stringify unicode escapes. -/
def hexChar (n : Nat) : Char :=
  if n < 10 then Char.ofNat (48 + n) else Char.ofNat (87 + n)

/-- The escape JSON.stringify applies to one character of a string value. -/
def escapeChar (c : Char) : List Char :=
  if c = '"' then ['\\', '"']
  else if c = '\\' then ['\\', '\\']
  else if c = '\n' then ['\\', 'n']
  else if c = '\r' then ['\\', 'r']
  else if c = '\t' then ['\\', 't']
  else if c = '\x08' then ['\\', 'b']
  else if c = '\x0c' then ['\\', 'f']
  else if c.toNat < 32 then ['\\', 'u', '0', '0', hexChar (c.toNat / 16), hexChar (c.toNat % 16)]
  else [c]

/-- JSON.stringify of a string value: quoted and escaped. -/
def quoteString (s : String) : String :=
  ⟨'"' :: (s.data.flatMap escapeChar) ++ ['"']⟩

/-- Whether a value is the JavaScript undefined value. -/
def Json.isUndef : Json → Bool
  | .undef => true
  | _ => false

mutual

/-- JSON.stringify restricted to the values of this plugin: object members
keep insertion order (none of the keys the plugin builds is an array index,
so the JavaScript integer-key reordering never applies), members with an
undefined value are dropped, and an undefined array element serializes as
null.  Numbers are restricted to integers, the only numbers the plugin
serializes (the sessionMode enum values 0, 1 and 2). -/
def stringifyVal : Json → String
  | .undef => "null"
  | .null => "null"
  | .bool true => "true"
  | .bool false => "false"
  | .num n => toString n
  | .str s => quoteString s
  | .arr es => "[" ++ stringifyElems es ++ "]"
  | .obj fs => "\x7b" ++ stringifyMembers fs ++ "\x7d"

/-- Comma-separated serialization of array elements. -/
def stringifyElems : List Json → String
  | [] => ""
  | [e] => stringifyVal e
  | e :: e2 :: es => stringifyVal e ++ "," ++ stringifyElems (e2 :: es)

/-- Comma-separated serialization of object members in insertion order,
dropping members whose value is undefined. -/
def stringifyMembers : List (String × Json) → String
  | [] => ""
  | (k, v) :: fs =>
      if v.isUndef then stringifyMembers fs
      else
        let rest := stringifyMembers fs
        let entry := quoteString k ++ ":" ++ stringifyVal v
        if rest = "" then entry else entry ++ "," ++ rest

end

mutual

/-- Structural equality of Json values (member order significant). -/
def Json.beq : Json → Json → Bool
  | .undef, .undef => true
  | .null, .null => true
  | .bool a, .bool b => a == b
  | .num a, .num b => a == b
  | .str a, .str b => a == b
  | .arr a, .arr b => Json.beqElems a b
  | .obj a, .obj b => Json.beqFields a b
  | _, _ => false

/-- Pointwise equality of element lists. -/
def Json.beqElems : List Json → List Json → Bool
  | [], [] => true
  | a :: as, b :: bs => Json.beq a b && Json.beqElems as bs
  | _, _ => false

/-- Pointwise equality of member lists (same keys in the same order). -/
def Json.beqFields : List (String × Json) → List (String × Json) → Bool
  | [], [] => true
  | (k1, v1) :: as, (k2, v2) :: bs => k1 == k2 && Json.beq v1 v2 && Json.beqFields as bs
  | _, _ => false

end

/-- First value bound to a key in a member list, as JavaScript property
lookup would see it. -/
def lookupField : List (String × Json) → String → Option Json
  | [], _ => none
  | (k2, v) :: rest, k => if k2 = k then some v else lookupField rest k

/-- Two member lists that represent the same finite map: every member of one
is bound, with a structurally equal value, in the other.  This is equality
as maps, insensitive to insertion order. -/
def fieldsEquivMaps (a b : List (String × Json)) : Bool :=
  (a.all fun kv => match lookupField b kv.1 with
    | some v => Json.beq v kv.2
    | none => false) &&
  (b.all fun kv => match lookupField a kv.1 with
    | some v => Json.beq v kv.2
    | none => false)

/-- The null test the source performs with a strict comparison against null
(privateResponse !== null). -/
def Json.isNull : Json → Bool
  | .null => true
  | _ => false

/-- JavaScript truthiness of the modelled values (undefined and null are
falsy, zero and the empty string are falsy, arrays and objects are truthy). -/
def jsTruthy : Json → Bool
  | .undef => false
  | .null => false
  | .bool b => b
  | .num n => !(n == 0)
  | .str s => !(s == "")
  | .arr _ => true
  | .obj _ => true

/-! ### JSON.parse

A recursive-descent parser for the JSON text format, used to model the
JSON.parse call in cacheGet.  Numbers are restricted to integers (fractional
and exponent forms are rejected), and unicode escapes in strings are
rejected; no value this development parses uses either form. -/

/-- Skip the whitespace JSON.parse accepts between tokens. -/
def skipWs : List Char → List Char
  | c :: cs => if c = ' ' ∨ c = '\n' ∨ c = '\t' ∨ c = '\r' then skipWs cs else c :: cs
  | [] => []

/-- Parse the body of a string literal after the opening quote; returns the
decoded characters and the input after the closing quote. -/
def parseStringBody : List Char → Option (List Char × List Char)
  | [] => none
  | '"' :: rest => some ([], rest)
  | '\\' :: e :: rest =>
      let dec : Option Char :=
        if e = '"' then some '"'
        else if e = '\\' then some '\\'
        else if e = '/' then some '/'
        else if e = 'n' then some '\n'
        else if e = 't' then some '\t'
        else if e = 'r' then some '\r'
        else if e = 'b' then some '\x08'
        else if e = 'f' then some '\x0c'
        else none
      match dec with
      | some c => (parseStringBody rest).map (fun p => (c :: p.1, p.2))
      | none => none
  | c :: rest =>
      if c.toNat < 32 then none
      else (parseStringBody rest).map (fun p => (c :: p.1, p.2))

/-- Longest leading run of decimal digits. -/
def takeDigits : List Char → List Char × List Char
  | c :: cs =>
      if c.isDigit then
        let p := takeDigits cs
        (c :: p.1, p.2)
      else ([], c :: cs)
  | [] => ([], [])

/-- Value of a digit run. -/
def digitsToNat (ds : List Char) : Nat :=
  ds.foldl (fun acc c => acc * 10 + (c.toNat - 48)) 0

/-- Parse an integer JSON number (leading zeros rejected as in JSON;
fractional and exponent forms rejected, see the section comment). -/
def parseNumber (cs : List Char) : Option (Json × List Char) :=
  let p := match cs with
    | '-' :: rest => (true, rest)
    | _ => (false, cs)
  let q := takeDigits p.2
  if q.1 = [] then none
  else if q.1.length > 1 ∧ q.1.headD '0' = '0' then none
  else match q.2 with
    | '.' :: _ => none
    | 'e' :: _ => none
    | 'E' :: _ => none
    | _ =>
      let n : Int := Int.ofNat (digitsToNat q.1)
      some (.num (if p.1 then -n else n), q.2)

mutual

/-- Parse one JSON value; fuel bounds the nesting depth. -/
def parseValue : Nat → List Char → Option (Json × List Char)
  | 0, _ => none
  | fuel + 1, cs =>
    match skipWs cs with
    | 'n' :: 'u' :: 'l' :: 'l' :: rest => some (.null, rest)
    | 't' :: 'r' :: 'u' :: 'e' :: rest => some (.bool true, rest)
    | 'f' :: 'a' :: 'l' :: 's' :: 'e' :: rest => some (.bool false, rest)
    | '"' :: rest => (parseStringBody rest).map (fun p => (.str ⟨p.1⟩, p.2))
    | '[' :: rest =>
        (match skipWs rest with
         | ']' :: r2 => some (.arr [], r2)
         | _ => (parseElems fuel rest).map (fun p => (.arr p.1, p.2)))
    | '\x7b' :: rest =>
        (match skipWs rest with
         | '\x7d' :: r2 => some (.obj [], r2)
         | _ => (parseMembers fuel rest).map (fun p => (.obj p.1, p.2)))
    | cs2 => parseNumber cs2

/-- Parse the elements of a non-empty array after the opening bracket. -/
def parseElems : Nat → List Char → Option (List Json × List Char)
  | 0, _ => none
  | fuel + 1, cs =>
    match parseValue fuel cs with
    | none => none
    | some (v, rest) =>
      match skipWs rest with
      | ',' :: r2 => (parseElems fuel r2).map (fun p => (v :: p.1, p.2))
      | ']' :: r2 => some ([v], r2)
      | _ => none

/-- Parse the members of a non-empty object after the opening brace. -/
def parseMembers : Nat → List Char → Option (List (String × Json) × List Char)
  | 0, _ => none
  | fuel + 1, cs =>
    match skipWs cs with
    | '"' :: rest =>
      (match parseStringBody rest with
       | none => none
       | some (kcs, r2) =>
         match skipWs r2 with
         | ':' :: r3 =>
           (match parseValue fuel r3 with
            | none => none
            | some (v, r4) =>
              match skipWs r4 with
              | ',' :: r5 => (parseMembers fuel r5).map (fun p => ((⟨kcs⟩, v) :: p.1, p.2))
              | '\x7d' :: r5 => some ([(⟨kcs⟩, v)], r5)
              | _ => none)
         | _ => none)
    | _ => none

end

/-- JSON.parse: a complete parse of the whole text, or failure. -/
def jsonParse (s : String) : Option Json :=
  match parseValue (2 * s.length + 2) s.data with
  | some (j, rest) => if skipWs rest = [] then some j else none
  | none => none

/-! ### SHA-256

The createHash sha256 digest used by the sources sha helper, implemented
over Nat; every 32-bit word is kept reduced modulo 2 ^ 32. -/

/-- Reduce to a 32-bit word. -/
def w32 (n : Nat) : Nat := n % 4294967296

/-- Right rotation of a 32-bit word. -/
def rotr32 (k n : Nat) : Nat := w32 ((n >>> k) ||| (n <<< (32 - k)))

/-- Big sigma 0. -/
def bigS0 (x : Nat) : Nat := (rotr32 2 x) ^^^ (rotr32 13 x) ^^^ (rotr32 22 x)

/-- Big sigma 1. -/
def bigS1 (x : Nat) : Nat := (rotr32 6 x) ^^^ (rotr32 11 x) ^^^ (rotr32 25 x)

/-- Small sigma 0. -/
def smallS0 (x : Nat) : Nat := (rotr32 7 x) ^^^ (rotr32 18 x) ^^^ (x >>> 3)

/-- Small sigma 1. -/
def smallS1 (x : Nat) : Nat := (rotr32 17 x) ^^^ (rotr32 19 x) ^^^ (x >>> 10)

/-- Choice function (the complement taken by xor against the 32-bit mask). -/
def chF (x y z : Nat) : Nat := (x &&& y) ^^^ ((x ^^^ 4294967295) &&& z)

/-- Majority function. -/
def majF (x y z : Nat) : Nat := (x &&& y) ^^^ (x &&& z) ^^^ (y &&& z)

/-- Round constants (FIPS 180-4, written in decimal). -/
def sha256K : List Nat :=
  [1116352408, 1899447441, 3049323471, 3921009573, 961987163, 1508970993,
   2453635748, 2870763221, 3624381080, 310598401, 607225278, 1426881987,
   1925078388, 2162078206, 2614888103, 3248222580, 3835390401, 4022224774,
   264347078, 604807628, 770255983, 1249150122, 1555081692, 1996064986,
   2554220882, 2821834349, 2952996808, 3210313671, 3336571891, 3584528711,
   113926993, 338241895, 666307205, 773529912, 1294757372, 1396182291,
   1695183700, 1986661051, 2177026350, 2456956037, 2730485921, 2820302411,
   3259730800, 3345764771, 3516065817, 3600352804, 4094571909, 275423344,
   430227734, 506948616, 659060556, 883997877, 958139571, 1322822218,
   1537002063, 1747873779, 1955562222, 2024104815, 2227730452, 2361852424,
   2428436474, 2756734187, 3204031479, 3329325298]

/-- The eight hash words. -/
structure Hash8 where
  w0 : Nat
  w1 : Nat
  w2 : Nat
  w3 : Nat
  w4 : Nat
  w5 : Nat
  w6 : Nat
  w7 : Nat

/-- Initial hash value (FIPS 180-4, written in decimal). -/
def initH : Hash8 :=
  ⟨1779033703, 3144134277, 1013904242, 2773480762, 1359893119, 2600822924, 528734635, 1541459225⟩

/-- Working registers of the compression loop. -/
structure Regs where
  a : Nat
  b : Nat
  c : Nat
  d : Nat
  e : Nat
  f : Nat
  g : Nat
  h : Nat

/-- One compression round. -/
def roundStep (st : Regs) (kw : Nat × Nat) : Regs :=
  let t1 := w32 (st.h + bigS1 st.e + chF st.e st.f st.g + kw.1 + kw.2)
  let t2 := w32 (bigS0 st.a + majF st.a st.b st.c)
  ⟨w32 (t1 + t2), st.a, st.b, st.c, w32 (st.d + t1), st.e, st.f, st.g⟩

/-- Big-endian combination of bytes into 32-bit words. -/
def bytesToWords : List Nat → List Nat
  | b0 :: b1 :: b2 :: b3 :: rest =>
      (b0 * 16777216 + b1 * 65536 + b2 * 256 + b3) :: bytesToWords rest
  | _ => []

/-- Extend the 16 block words to the 64 schedule words. -/
def buildSchedule : Nat → Array Nat → Array Nat
  | 0, ws => ws
  | n + 1, ws =>
      let i := ws.size
      let w := w32 (smallS1 (ws.getD (i - 2) 0) + ws.getD (i - 7) 0 +
                    smallS0 (ws.getD (i - 15) 0) + ws.getD (i - 16) 0)
      buildSchedule n (ws.push w)

/-- Compress one 64-byte block into the hash state. -/
def processBlock (hv : Hash8) (block : List Nat) : Hash8 :=
  let ws := (buildSchedule 48 (bytesToWords block).toArray).toList
  let st0 : Regs := ⟨hv.w0, hv.w1, hv.w2, hv.w3, hv.w4, hv.w5, hv.w6, hv.w7⟩
  let st := (sha256K.zip ws).foldl roundStep st0
  ⟨w32 (hv.w0 + st.a), w32 (hv.w1 + st.b), w32 (hv.w2 + st.c), w32 (hv.w3 + st.d),
   w32 (hv.w4 + st.e), w32 (hv.w5 + st.f), w32 (hv.w6 + st.g), w32 (hv.w7 + st.h)⟩

/-- Fold the blocks of the padded message into the hash state. -/
def processChunks : Nat → Hash8 → List Nat → Hash8
  | 0, hv, _ => hv
  | _ + 1, hv, [] => hv
  | fuel + 1, hv, bytes => processChunks fuel (processBlock hv (bytes.take 64)) (bytes.drop 64)

/-- Big-endian bytes of a number, fixed width. -/
def natToBytesBE : Nat → Nat → List Nat
  | 0, _ => []
  | k + 1, n => natToBytesBE k (n / 256) ++ [n % 256]

/-- SHA-256 message padding. -/
def padBytes (msg : List Nat) : List Nat :=
  let len := msg.length
  let zeros := (64 - ((len + 9) % 64)) % 64
  msg ++ [128] ++ List.replicate zeros 0 ++ natToBytesBE 8 (len * 8)

/-- Hash state after absorbing the utf-8 bytes of a string. -/
def sha256Run (s : String) : Hash8 :=
  let bytes := (s.toUTF8.toList).map (fun b => b.toNat)
  let padded := padBytes bytes
  processChunks (padded.length + 1) initH padded

/-- The eight digest words in order. -/
def digestWords (hv : Hash8) : List Nat :=
  [hv.w0, hv.w1, hv.w2, hv.w3, hv.w4, hv.w5, hv.w6, hv.w7]

/-- Lowercase hexadecimal rendering of one 32-bit word. -/
def toHex8 (w : Nat) : List Char :=
  [hexChar (w / 268435456 % 16), hexChar (w / 16777216 % 16), hexChar (w / 1048576 % 16),
   hexChar (w / 65536 % 16), hexChar (w / 4096 % 16), hexChar (w / 256 % 16),
   hexChar (w / 16 % 16), hexChar (w % 16)]

/-- Lowercase hex SHA-256 digest of a string, as the Node createHash call
with hex digest encoding returns it. -/
def sha256Hex (s : String) : String :=
  ⟨(digestWords (sha256Run s)).flatMap toHex8⟩

/-! ### The plugin -/

/-- The sha helper of the source (lines 80 to 84): sha256, hex encoded. -/
def sha (s : String) : String := sha256Hex s

/-- The SessionMode enum (lines 74 to 78); a TypeScript numeric enum, so the
serialized values are 0, 1 and 2. -/
inductive SessionMode where
  | NoSession
  | Private
  | AuthenticatedPublic

/-- Numeric value of a SessionMode enum member. -/
def SessionMode.toInt : SessionMode → Int
  | .NoSession => 0
  | .Private => 1
  | .AuthenticatedPublic => 2

/-- JavaScript object spread update, as in the object literals of the source:
a key already present keeps its position and gets the new value, a new key is
appended after the existing members. -/
def setField : List (String × Json) → String → Json → List (String × Json)
  | [], k, v => [(k, v)]
  | (k2, v2) :: fs, k, v =>
      if k2 = k then (k2, v) :: fs else (k2, v2) :: setField fs k v

/-- The object the cacheKey function serializes and hashes: the spread of
baseCacheKey with the sessionMode member, passed through JSON.stringify. -/
def cacheKeyPreimage (baseCacheKey : List (String × Json)) (sessionMode : SessionMode) : String :=
  stringifyVal (.obj (setField baseCacheKey "sessionMode" (.num sessionMode.toInt)))

/-- The cacheKey function of the source (lines 86 to 88):
sha(JSON.stringify(spread of baseCacheKey with the sessionMode member)). -/
def cacheKey (baseCacheKey : List (String × Json)) (sessionMode : SessionMode) : String :=
  sha (cacheKeyPreimage baseCacheKey sessionMode)

/-- One operation against the underlying key-value store. -/
inductive StoreOp where
  | get (key : String)
  | set (key : String) (value : String)

/-- The underlying key-value store: a map from keys to optional string
values (none models the undefined returned on a miss). -/
def Store : Type := String → Option String

/-- Whether a store operation is a read. -/
def StoreOp.isGet : StoreOp → Bool
  | .get _ => true
  | .set _ _ => false

/-- The cacheGet closure of the source (lines 106 to 116), with the
PrefixingKeyValueCache of requestDidStart (lines 97 to 100) inlined: the key
is computed by cacheKey, prefixed with fqc:, read from the underlying store;
undefined becomes null, otherwise the value is parsed by JSON.parse (a parse
failure is the thrown exception, modelled as the error case).  The first
component is the key the underlying store was asked for. -/
def cacheGet (store : Store) (baseCacheKey : List (String × Json)) (sessionMode : SessionMode) :
    String × Except Unit Json :=
  let key := cacheKey baseCacheKey sessionMode
  let storeKey := "fqc:" ++ key
  match store storeKey with
  | none => (storeKey, .ok .null)
  | some value =>
    match jsonParse value with
    | some j => (storeKey, .ok j)
    | none => (storeKey, .error ())

/-- The pre-execution lookup of the execute listener (lines 144 to 155),
after the hooks have resolved sessionId and the base cache key is built: the
session state machine over the resolved sessionId.  Returns the list of
store operations performed in order and the value the listener returns
(ok null is a miss, ok j a cached response, error a thrown exception). -/
def lookupPhase (store : Store) (sessionId : Option String)
    (baseCacheKey : List (String × Json)) : List StoreOp × Except Unit Json :=
  match sessionId with
  | none =>
      let r := cacheGet store baseCacheKey .NoSession
      ([.get r.1], r.2)
  | some sid =>
      let rp := cacheGet store (setField baseCacheKey "sessionId" (.str sid)) .Private
      match rp.2 with
      | .error e => ([.get rp.1], .error e)
      | .ok j =>
          if j.isNull then
            let ra := cacheGet store baseCacheKey .AuthenticatedPublic
            ([.get rp.1, .get ra.1], ra.2)
          else ([.get rp.1], .ok j)

/-- The per-request mutable state created by requestDidStart
(lines 102 to 104). -/
structure RequestState where
  invokedHooks : Bool
  sessionId : Option String
  extraCacheKeyData : Json

/-- The fresh state requestDidStart creates for each request:
invokedHooks false, sessionId null, extraCacheKeyData null. -/
def initialRequestState : RequestState :=
  ⟨false, none, .null⟩

/-- The part of a request context the plugin reads: the printed document,
the operation name (null allowed) and the request variables (a JavaScript
value, undefined when the request carries none). -/
structure CachedRequest where
  document : String
  operationName : Option String
  «variables» : Json

/-- The plugin options: the two optional hooks (the cache option is the
store itself, passed separately).  Hooks are modelled as pure functions. -/
structure PluginOptions where
  sessionId : Option (CachedRequest → Option String)
  extraCacheKeyData : Option (CachedRequest → Json)

/-- The baseCacheKey object literal of execute (lines 134 to 142). -/
def mkBaseCacheKey (document : String) (operationName : Option String)
    («variables» : Json) (extra : Json) : List (String × Json) :=
  [("document", .str document),
   ("operationName", match operationName with | some s => .str s | none => .null),
   ("variables", «variables»),
   ("extra", extra)]

/-- The execute listener (lines 119 to 156): invoke the hooks that are
defined, record their results and set invokedHooks, build the base cache
key, then run the session state machine of lookupPhase. -/
def execute (options : PluginOptions) (st : RequestState) (req : CachedRequest)
    (store : Store) : RequestState × (List StoreOp × Except Unit Json) :=
  let sessionId := match options.sessionId with
    | some hook => hook req
    | none => st.sessionId
  let extra := match options.extraCacheKeyData with
    | some hook => hook req
    | none => st.extraCacheKeyData
  let st2 : RequestState := ⟨true, sessionId, extra⟩
  let baseCacheKey := mkBaseCacheKey req.document req.operationName req.«variables» extra
  (st2, lookupPhase store sessionId baseCacheKey)

/-- The response fields willSendResponse inspects; both can be the
JavaScript undefined value. -/
structure GraphQLResponse where
  errors : Json
  data : Json

/-- The willSendResponse listener (lines 158 to 178): if the response has a
truthy errors value or a falsy data value, return without caching; then, if
the invokedHooks flag of the request is false, throw the consistency error.
The source performs no store write in any branch (the write logic is left as
a comment at line 177), so the operation list is empty throughout. -/
def willSendResponse (invokedHooks : Bool) (response : GraphQLResponse) :
    List StoreOp × Except String Unit :=
  if jsTruthy response.errors || !jsTruthy response.data then
    ([], .ok ())
  else if !invokedHooks then
    ([], .error "willSendResponse called without error, but execute not called?")
  else
    ([], .ok ())

/-- Apply a list of store operations to a store (reads leave it unchanged,
writes update the written key). -/
def applyOps (store : Store) : List StoreOp → Store
  | [] => store
  | .get _ :: rest => applyOps store rest
  | .set k v :: rest => applyOps (fun k2 => if k2 = k then some v else store k2) rest

/-- Everything observable about the processing of one request. -/
structure RequestOutcome where
  stateAfterHooks : RequestState
  lookupOps : List StoreOp
  lookupResult : Except Unit Json
  responseOps : List StoreOp
  responseResult : Except String Unit
  finalStore : Store

/-- One full request against the plugin: requestDidStart creates the fresh
per-request state, execute runs the hooks and the lookup, willSendResponse
inspects the final response, and the store operations of both phases are
applied to the store in order. -/
def processRequest (options : PluginOptions) (store : Store) (req : CachedRequest)
    (response : GraphQLResponse) : RequestOutcome :=
  let st0 := initialRequestState
  let e := execute options st0 req store
  let w := willSendResponse e.1.invokedHooks response
  { stateAfterHooks := e.1
    lookupOps := e.2.1
    lookupResult := e.2.2
    responseOps := w.1
    responseResult := w.2
    finalStore := applyOps (applyOps store e.2.1) w.1 }

/-! ### Helper lemmas about strings and serialization -/

/-- Appending to the empty string is the identity. -/
theorem str_empty_append (s : String) : "" ++ s = s := by
  cases s; rfl

/-- A quoted string is never empty (it carries its two quote characters). -/
theorem quoteString_length_pos (s : String) : 0 < (quoteString s).length := by
  simp [quoteString, String.length]

/-- A serialized object member is never the empty string. -/
theorem stringify_entry_length_pos (k : String) (v : Json) :
    0 < (quoteString k ++ ":" ++ stringifyVal v).length := by
  have := quoteString_length_pos k
  simp [String.length_append]
  omega

/-- Appending a nonempty string never yields the empty string. -/
theorem append_ne_empty_right (q e : String) (h : 0 < e.length) : q ++ e ≠ "" := by
  intro hcon
  have hlen : (q ++ e).length = 0 := by rw [hcon]; rfl
  rw [String.length_append] at hlen
  omega

/-- The serialization of a member list whose last member is a number ends
with the serialization of that member. -/
theorem stringifyMembers_append_last (fs : List (String × Json)) (k : String) (d : Int) :
    ∃ q : String, stringifyMembers (fs ++ [(k, Json.num d)]) =
      q ++ (quoteString k ++ ":" ++ stringifyVal (Json.num d)) := by
  induction fs with
  | nil =>
      refine ⟨"", ?_⟩
      rw [str_empty_append]
      simp [stringifyMembers, Json.isUndef]
  | cons p fs ih =>
      obtain ⟨k2, v2⟩ := p
      obtain ⟨q, hq⟩ := ih
      by_cases hv : v2.isUndef = true
      · refine ⟨q, ?_⟩
        simp [stringifyMembers, hv, hq]
      · have hrest : stringifyMembers (fs ++ [(k, Json.num d)]) ≠ "" := by
          rw [hq]
          exact append_ne_empty_right _ _ (stringify_entry_length_pos k (Json.num d))
        refine ⟨quoteString k2 ++ ":" ++ stringifyVal v2 ++ "," ++ q, ?_⟩
        simp only [List.cons_append, stringifyMembers, hv, if_false, Bool.false_eq_true,
          List.append_eq]
        rw [if_neg hrest, hq]
        simp [String.append_assoc]

/-- The serialized digit of each session mode. -/
def modeDigitChar : SessionMode → Char
  | .NoSession => '0'
  | .Private => '1'
  | .AuthenticatedPublic => '2'

/-- A session mode serializes to its single decimal digit. -/
theorem stringify_num_mode (m : SessionMode) :
    stringifyVal (Json.num m.toInt) = ⟨[modeDigitChar m]⟩ := by
  cases m <;> rfl

/-- Spreading a fresh key appends the member at the end. -/
theorem setField_append (fs : List (String × Json)) (k : String) (v : Json)
    (h : ∀ p ∈ fs, p.1 ≠ k) : setField fs k v = fs ++ [(k, v)] := by
  induction fs with
  | nil => rfl
  | cons p fs ih =>
      obtain ⟨k2, v2⟩ := p
      have hk2 : k2 ≠ k := h (k2, v2) (by simp)
      simp only [setField, if_neg hk2, List.cons_append, List.cons.injEq, true_and]
      exact ih (fun p hp => h p (by simp [hp]))

/-- The serialized pre-hash object ends with the sessionMode digit and the
closing brace whenever the base member list does not already bind
sessionMode. -/
theorem cacheKeyPreimage_ends (fs : List (String × Json))
    (h : ∀ p ∈ fs, p.1 ≠ "sessionMode") (m : SessionMode) :
    ∃ L : List Char, (cacheKeyPreimage fs m).data = L ++ [modeDigitChar m, '\x7d'] := by
  obtain ⟨q, hq⟩ := stringifyMembers_append_last fs "sessionMode" m.toInt
  refine ⟨'\x7b' :: q.data ++ (quoteString "sessionMode").data ++ [':'], ?_⟩
  rw [cacheKeyPreimage, setField_append _ _ _ h]
  rw [show stringifyVal (Json.obj (fs ++ [("sessionMode", Json.num m.toInt)])) =
      "\x7b" ++ stringifyMembers (fs ++ [("sessionMode", Json.num m.toInt)]) ++ "\x7d" from rfl]
  rw [hq, stringify_num_mode]
  simp [String.data_append]

/-- Character lists that differ in the second-to-last position differ. -/
theorem append_last_two_ne (c1 c2 : Char) (h : c1 ≠ c2) (L1 L2 : List Char) :
    L1 ++ [c1, '\x7d'] ≠ L2 ++ [c2, '\x7d'] := by
  intro he
  have h2 := congrArg List.reverse he
  simp [List.reverse_append] at h2
  exact h h2.1

/-- Pre-hash serializations under distinct session modes are distinct
strings, for any two base member lists that do not bind sessionMode. -/
theorem cacheKeyPreimage_mode_ne (fs1 fs2 : List (String × Json))
    (h1 : ∀ p ∈ fs1, p.1 ≠ "sessionMode") (h2 : ∀ p ∈ fs2, p.1 ≠ "sessionMode")
    (m1 m2 : SessionMode) (hm : modeDigitChar m1 ≠ modeDigitChar m2) :
    cacheKeyPreimage fs1 m1 ≠ cacheKeyPreimage fs2 m2 := by
  obtain ⟨L1, e1⟩ := cacheKeyPreimage_ends fs1 h1 m1
  obtain ⟨L2, e2⟩ := cacheKeyPreimage_ends fs2 h2 m2
  intro he
  have := congrArg String.data he
  rw [e1, e2] at this
  exact append_last_two_ne _ _ hm _ _ this

/-! ### Helper lemmas about the plugin operations -/

/-- The key cacheGet asks the underlying store for, in every branch. -/
theorem cacheGet_fst (store : Store) (b : List (String × Json)) (m : SessionMode) :
    (cacheGet store b m).1 = "fqc:" ++ cacheKey b m := by
  simp only [cacheGet]
  split
  · rfl
  · split <;> rfl

/-- Every operation the lookup performs is a read. -/
theorem lookupPhase_ops_gets (store : Store) (sid : Option String)
    (base : List (String × Json)) :
    (lookupPhase store sid base).1.all StoreOp.isGet = true := by
  cases sid with
  | none => simp [lookupPhase, StoreOp.isGet]
  | some s =>
      simp only [lookupPhase]
      split
      · simp [StoreOp.isGet]
      · split <;> simp [StoreOp.isGet]

/-- A list of reads leaves the store unchanged. -/
theorem applyOps_all_gets (store : Store) (ops : List StoreOp)
    (h : ops.all StoreOp.isGet = true) : applyOps store ops = store := by
  induction ops with
  | nil => rfl
  | cons op rest ih =>
      cases op with
      | get k =>
          simp only [List.all_cons, Bool.and_eq_true] at h
          simpa [applyOps] using ih h.2
      | set k v => simp [StoreOp.isGet] at h

/-! ### Helper lemmas about the digest encoding -/

/-- The sixteen lowercase hexadecimal digits. -/
def hexDigits : List Char := "0123456789abcdef".data

/-- Every nibble renders to a lowercase hexadecimal digit. -/
theorem hexChar_mem (n : Nat) : hexChar (n % 16) ∈ hexDigits := by
  have h : n % 16 < 16 := Nat.mod_lt _ (by norm_num)
  interval_cases h2 : n % 16 <;> decide

/-- Every character of a rendered word is a lowercase hexadecimal digit. -/
theorem toHex8_all_hex (w : Nat) : ∀ c ∈ toHex8 w, c ∈ hexDigits := by
  simp [toHex8, hexChar_mem]

/-- A rendered word has eight characters. -/
theorem toHex8_length (w : Nat) : (toHex8 w).length = 8 := by
  simp [toHex8]

/-- The rendered digest has sixty-four characters. -/
theorem sha256Hex_length (s : String) : (sha256Hex s).length = 64 := by
  simp [sha256Hex, String.length, digestWords, List.flatMap, toHex8_length, List.length_append]

/-- Every character of the rendered digest is a lowercase hexadecimal digit. -/
theorem sha256Hex_mem_hex (s : String) : ∀ c ∈ (sha256Hex s).data, c ∈ hexDigits := by
  intro c hc
  have hc2 : c ∈ (digestWords (sha256Run s)).flatMap toHex8 := hc
  simp only [digestWords, List.flatMap_cons, List.flatMap_nil, List.append_nil,
    List.mem_append] at hc2
  rcases hc2 with h | h | h | h | h | h | h | h <;> exact toHex8_all_hex _ _ h

/-- Boolean form of the digest alphabet fact. -/
theorem sha256Hex_all_hex (s : String) :
    (sha256Hex s).data.all (fun c => hexDigits.contains c) = true := by
  simp only [List.all_eq_true]
  intro c hc
  exact List.elem_eq_true_of_mem (sha256Hex_mem_hex s c hc)

/-! ### Helper lemmas about the base cache key -/

/-- The keys of the base cache key object. -/
theorem mkBaseCacheKey_fst (document : String) (operationName : Option String)
    (vars extra : Json) (p : String × Json)
    (hp : p ∈ mkBaseCacheKey document operationName vars extra) :
    p.1 = "document" ∨ p.1 = "operationName" ∨ p.1 = "variables" ∨ p.1 = "extra" := by
  simp only [mkBaseCacheKey, List.mem_cons, List.mem_singleton, List.not_mem_nil] at hp
  rcases hp with h | h | h | h | h <;> first
    | (subst h; simp)
    | exact absurd h (by simp)

/-- The base cache key object never binds sessionMode. -/
theorem mkBaseCacheKey_no_sessionMode (document : String) (operationName : Option String)
    (vars extra : Json) :
    ∀ p ∈ mkBaseCacheKey document operationName vars extra, p.1 ≠ "sessionMode" := by
  intro p hp
  rcases mkBaseCacheKey_fst document operationName vars extra p hp with h | h | h | h <;> simp [h]

/-- The base cache key object never binds sessionId. -/
theorem mkBaseCacheKey_no_sessionId (document : String) (operationName : Option String)
    (vars extra : Json) :
    ∀ p ∈ mkBaseCacheKey document operationName vars extra, p.1 ≠ "sessionId" := by
  intro p hp
  rcases mkBaseCacheKey_fst document operationName vars extra p hp with h | h | h | h <;> simp [h]

/-- The sessionId-augmented base cache key still never binds sessionMode. -/
theorem withSessionId_no_sessionMode (document : String) (operationName : Option String)
    (vars extra : Json) (s : String) :
    ∀ p ∈ setField (mkBaseCacheKey document operationName vars extra) "sessionId" (Json.str s),
      p.1 ≠ "sessionMode" := by
  intro p hp
  rw [setField_append _ _ _ (mkBaseCacheKey_no_sessionId document operationName vars extra)] at hp
  rcases List.mem_append.1 hp with h | h
  · exact mkBaseCacheKey_no_sessionMode document operationName vars extra p h
  · simp only [List.mem_singleton] at h
    subst h
    simp

/-- A key never bound in a member list looks up to none. -/
theorem lookupField_of_not_mem (fs : List (String × Json)) (k : String)
    (h : ∀ p ∈ fs, p.1 ≠ k) : lookupField fs k = none := by
  induction fs with
  | nil => rfl
  | cons p fs ih =>
      obtain ⟨k2, v2⟩ := p
      simp only [lookupField, if_neg (h (k2, v2) (by simp))]
      exact ih fun p hp => h p (by simp [hp])

/-- A key appended to a member list that did not bind it looks up to its
appended value. -/
theorem lookupField_append_self (fs : List (String × Json)) (k : String) (v : Json)
    (h : ∀ p ∈ fs, p.1 ≠ k) : lookupField (fs ++ [(k, v)]) k = some v := by
  induction fs with
  | nil => simp [lookupField]
  | cons p fs ih =>
      obtain ⟨k2, v2⟩ := p
      simp only [List.cons_append, lookupField, if_neg (h (k2, v2) (by simp))]
      exact ih fun p hp => h p (by simp [hp])

/-- The operations of an anonymous lookup: one read at the no-session key. -/
theorem lookupPhase_none_ops (store : Store) (base : List (String × Json)) :
    (lookupPhase store none base).1 =
      [StoreOp.get ("fqc:" ++ cacheKey base SessionMode.NoSession)] := by
  simp [lookupPhase, cacheGet_fst]

/-- The operations of an authenticated lookup: first the private key, then
possibly the authenticated-public key and nothing else. -/
theorem lookupPhase_some_ops (store : Store) (s : String) (base : List (String × Json)) :
    (lookupPhase store (some s) base).1.head? =
      some (StoreOp.get ("fqc:" ++ cacheKey (setField base "sessionId" (Json.str s))
        SessionMode.Private))
    ∧ ((lookupPhase store (some s) base).1.tail = [] ∨
       (lookupPhase store (some s) base).1.tail =
         [StoreOp.get ("fqc:" ++ cacheKey base SessionMode.AuthenticatedPublic)]) := by
  simp only [lookupPhase]
  split
  · simp [cacheGet_fst]
  · split
    · simp [cacheGet_fst]
    · simp [cacheGet_fst]

/-- The member list whose serialization execute hashes for a given resolved
sessionId: the base cache key itself when the sessionId is null, the base
cache key augmented with the sessionId member when it is not. -/
def sessionKeyFields (document : String) (operationName : Option String)
    (vars extra : Json) : Option String → List (String × Json)
  | none => mkBaseCacheKey document operationName vars extra
  | some s => setField (mkBaseCacheKey document operationName vars extra) "sessionId" (Json.str s)

/-- willSendResponse performs no store operation in any branch. -/
theorem willSendResponse_no_ops (invoked : Bool) (response : GraphQLResponse) :
    (willSendResponse invoked response).1 = [] := by
  unfold willSendResponse
  split
  · rfl
  · split <;> rfl

/-- Every store operation of the execute listener is a read. -/
theorem execute_ops_gets (options : PluginOptions) (st : RequestState) (req : CachedRequest)
    (store : Store) :
    (execute options st req store).2.1.all StoreOp.isGet = true := by
  simp only [execute]
  exact lookupPhase_ops_gets _ _ _

/-! ### The claims -/

/-- C1: the pre-execution lookup implements the session state machine.  With
a null resolved sessionId it performs exactly one read, at the key built
from the base cache key under mode NoSession, and returns the parsed entry
or the miss.  With a non-null sessionId it first reads at the key built
from the base cache key augmented with that sessionId under mode Private;
on a hit it returns that entry at once, with no read of the public
partition; on a miss it performs one read at the key built from the
unaugmented base cache key under mode AuthenticatedPublic and returns that
result. -/
theorem execute_lookup_state_machine (store : Store) (s : String)
    (base : List (String × Json)) (v : String) (j : Json) :
    (lookupPhase store none base =
      ([StoreOp.get ("fqc:" ++ cacheKey base SessionMode.NoSession)],
       (cacheGet store base SessionMode.NoSession).2))
    ∧ (store ("fqc:" ++ cacheKey (setField base "sessionId" (Json.str s))
          SessionMode.Private) = some v →
       jsonParse v = some j → j.isNull = false →
       lookupPhase store (some s) base =
         ([StoreOp.get ("fqc:" ++ cacheKey (setField base "sessionId" (Json.str s))
             SessionMode.Private)], .ok j))
    ∧ ((cacheGet store (setField base "sessionId" (Json.str s)) SessionMode.Private).2 =
          .ok .null →
       lookupPhase store (some s) base =
         ([StoreOp.get ("fqc:" ++ cacheKey (setField base "sessionId" (Json.str s))
             SessionMode.Private),
           StoreOp.get ("fqc:" ++ cacheKey base SessionMode.AuthenticatedPublic)],
          (cacheGet store base SessionMode.AuthenticatedPublic).2)) := by
  refine ⟨?_, ?_, ?_⟩
  · simp [lookupPhase, cacheGet_fst]
  · intro h1 h2 h3
    have hx : cacheGet store (setField base "sessionId" (Json.str s)) SessionMode.Private =
        ("fqc:" ++ cacheKey (setField base "sessionId" (Json.str s)) SessionMode.Private,
         .ok j) := by
      simp [cacheGet, h1, h2]
    simp [lookupPhase, hx, h3]
  · intro h
    simp only [lookupPhase, h]
    simp [Json.isNull, cacheGet_fst]

/-- Witness for C1: a store holding a private entry for session u1 yields a
one-read private hit; the empty store yields a private miss followed by the
public fallback; an anonymous lookup against the empty store is a one-read
miss at the no-session key. -/
theorem execute_lookup_state_machine_witness :
    (lookupPhase
        (fun k => if k = "fqc:" ++ cacheKey
            (setField (mkBaseCacheKey "q" none (Json.obj []) Json.null) "sessionId"
              (Json.str "u1")) SessionMode.Private
          then some "\x7b\x7d" else none)
        (some "u1") (mkBaseCacheKey "q" none (Json.obj []) Json.null) =
      ([StoreOp.get ("fqc:" ++ cacheKey
          (setField (mkBaseCacheKey "q" none (Json.obj []) Json.null) "sessionId"
            (Json.str "u1")) SessionMode.Private)], .ok (Json.obj [])))
    ∧ (lookupPhase (fun _ => none) (some "u1") (mkBaseCacheKey "q" none (Json.obj []) Json.null) =
      ([StoreOp.get ("fqc:" ++ cacheKey
          (setField (mkBaseCacheKey "q" none (Json.obj []) Json.null) "sessionId"
            (Json.str "u1")) SessionMode.Private),
        StoreOp.get ("fqc:" ++ cacheKey (mkBaseCacheKey "q" none (Json.obj []) Json.null)
          SessionMode.AuthenticatedPublic)], .ok Json.null))
    ∧ (lookupPhase (fun _ => none) none (mkBaseCacheKey "q" none (Json.obj []) Json.null) =
      ([StoreOp.get ("fqc:" ++ cacheKey (mkBaseCacheKey "q" none (Json.obj []) Json.null)
          SessionMode.NoSession)], .ok Json.null)) := by
  refine ⟨?_, ?_, ?_⟩
  · exact (execute_lookup_state_machine _ "u1" _ "\x7b\x7d" (Json.obj [])).2.1
      (if_pos rfl) (by rfl) (by rfl)
  · exact ((execute_lookup_state_machine (fun _ => none) "u1" _ "x" Json.null).2.2 rfl).trans rfl
  · exact ((execute_lookup_state_machine (fun _ => none) "u1" _ "x" Json.null).1).trans rfl

/-- C2: a key used under mode Private embeds the non-null sessionId in the
serialized structure, keys used under mode AuthenticatedPublic or NoSession
never embed one, and for any fixed base cache key and any sessionId the
pre-hash serialization under Private differs from the pre-hash
serializations under AuthenticatedPublic and NoSession (the keys differ up
to hash collision of these distinct preimages). -/
theorem private_key_partition_isolation (document : String) (operationName : Option String)
    (vars extra : Json) (s : String) (store : Store) :
    lookupField (setField (mkBaseCacheKey document operationName vars extra) "sessionId"
        (Json.str s)) "sessionId" = some (Json.str s)
    ∧ lookupField (mkBaseCacheKey document operationName vars extra) "sessionId" = none
    ∧ (lookupPhase store (some s) (mkBaseCacheKey document operationName vars extra)).1.head? =
        some (StoreOp.get ("fqc:" ++ cacheKey
          (setField (mkBaseCacheKey document operationName vars extra) "sessionId" (Json.str s))
          SessionMode.Private))
    ∧ ((lookupPhase store (some s) (mkBaseCacheKey document operationName vars extra)).1.tail = []
       ∨ (lookupPhase store (some s) (mkBaseCacheKey document operationName vars extra)).1.tail =
           [StoreOp.get ("fqc:" ++ cacheKey (mkBaseCacheKey document operationName vars extra)
             SessionMode.AuthenticatedPublic)])
    ∧ (lookupPhase store none (mkBaseCacheKey document operationName vars extra)).1 =
        [StoreOp.get ("fqc:" ++ cacheKey (mkBaseCacheKey document operationName vars extra)
          SessionMode.NoSession)]
    ∧ cacheKeyPreimage (setField (mkBaseCacheKey document operationName vars extra) "sessionId"
        (Json.str s)) SessionMode.Private ≠
      cacheKeyPreimage (mkBaseCacheKey document operationName vars extra)
        SessionMode.AuthenticatedPublic
    ∧ cacheKeyPreimage (setField (mkBaseCacheKey document operationName vars extra) "sessionId"
        (Json.str s)) SessionMode.Private ≠
      cacheKeyPreimage (mkBaseCacheKey document operationName vars extra)
        SessionMode.NoSession := by
  refine ⟨?_, ?_, (lookupPhase_some_ops store s _).1, (lookupPhase_some_ops store s _).2,
    lookupPhase_none_ops store _, ?_, ?_⟩
  · rw [setField_append _ _ _ (mkBaseCacheKey_no_sessionId document operationName vars extra)]
    exact lookupField_append_self _ _ _
      (mkBaseCacheKey_no_sessionId document operationName vars extra)
  · exact lookupField_of_not_mem _ _
      (mkBaseCacheKey_no_sessionId document operationName vars extra)
  · exact cacheKeyPreimage_mode_ne _ _
      (withSessionId_no_sessionMode document operationName vars extra s)
      (mkBaseCacheKey_no_sessionMode document operationName vars extra)
      _ _ (by decide)
  · exact cacheKeyPreimage_mode_ne _ _
      (withSessionId_no_sessionMode document operationName vars extra s)
      (mkBaseCacheKey_no_sessionMode document operationName vars extra)
      _ _ (by decide)

/-- C3: the source never performs the claimed write.  At a request whose
hooks were invoked and whose response has data and no errors,
willSendResponse returns successfully with an empty operation list: the
write of the serialized response announced by the option documentation of
the source is not implemented (the body ends in a comment at line 177). -/
theorem willSendResponse_success_no_write :
    willSendResponse true ⟨Json.undef, Json.obj [("a", Json.num 1)]⟩ = ([], .ok ()) := rfl

/-- C4: a response with a non-empty error list, or with an absent or null
data payload, is never cached: willSendResponse performs zero store writes
and returns without error. -/
theorem never_cache_errors (invoked : Bool) (response : GraphQLResponse)
    (h : (∃ e es, response.errors = Json.arr (e :: es)) ∨ response.data = Json.undef ∨
      response.data = Json.null) :
    willSendResponse invoked response = ([], .ok ()) := by
  rcases h with ⟨e, es, he⟩ | hd | hd
  · simp [willSendResponse, he, jsTruthy]
  · simp [willSendResponse, hd, jsTruthy]
  · simp [willSendResponse, hd, jsTruthy]

/-- Witness for C4: a response with one error is not cached even when the
hooks never ran. -/
theorem never_cache_errors_witness :
    willSendResponse false ⟨Json.arr [Json.obj []], Json.obj []⟩ = ([], .ok ()) :=
  never_cache_errors false ⟨Json.arr [Json.obj []], Json.obj []⟩ (Or.inl ⟨Json.obj [], [], rfl⟩)

/-- Counterexample to C5 as stated: willSendResponse invoked with the
hooksInvoked flag false on a response that carries an error returns
successfully (the eligibility rejection runs before the consistency guard),
so no fatal error is raised for that request. -/
theorem consistency_guard_not_raised_on_error_response :
    willSendResponse false ⟨Json.arr [Json.obj []], Json.obj []⟩ = ([], .ok ()) := rfl

/-- C5 as amended: when willSendResponse is invoked with the hooksInvoked
flag false on a response with no errors value and a truthy data payload, it
raises the fatal consistency error and performs zero store writes. -/
theorem consistency_guard_eligible (response : GraphQLResponse)
    (he : jsTruthy response.errors = false) (hd : jsTruthy response.data = true) :
    willSendResponse false response =
      ([], .error "willSendResponse called without error, but execute not called?") := by
  simp [willSendResponse, he, hd]

/-- Witness for the amended C5: an error-free response with data, processed
with the flag false, raises the consistency error. -/
theorem consistency_guard_eligible_witness :
    willSendResponse false ⟨Json.undef, Json.obj []⟩ =
      ([], .error "willSendResponse called without error, but execute not called?") :=
  consistency_guard_eligible ⟨Json.undef, Json.obj []⟩ rfl rfl

/-- C6: the full store key is the namespace prefix fqc: followed by the
lowercase hexadecimal sha256 digest of the serialization of the object
holding document, operationName, variables, extra, the optional sessionId
and the sessionMode tag: the key cacheGet asks the underlying store for
equals that formula, it does not depend on the store (so repeated calls on
equal inputs yield the identical string), the digest has sixty-four
characters and every one of them is a lowercase hexadecimal digit. -/
theorem cacheKey_bit_exact_format (document : String) (operationName : Option String)
    (vars extra : Json) (sessionId : Option String) (m : SessionMode)
    (store store2 : Store) :
    (cacheGet store (sessionKeyFields document operationName vars extra sessionId) m).1 =
      "fqc:" ++ sha256Hex (stringifyVal (Json.obj (setField
        (sessionKeyFields document operationName vars extra sessionId) "sessionMode"
        (Json.num m.toInt))))
    ∧ (cacheGet store (sessionKeyFields document operationName vars extra sessionId) m).1 =
      (cacheGet store2 (sessionKeyFields document operationName vars extra sessionId) m).1
    ∧ (sha256Hex (cacheKeyPreimage
        (sessionKeyFields document operationName vars extra sessionId) m)).length = 64
    ∧ (sha256Hex (cacheKeyPreimage
        (sessionKeyFields document operationName vars extra sessionId) m)).data.all
        (fun c => hexDigits.contains c) = true := by
  refine ⟨?_, ?_, sha256Hex_length _, sha256Hex_all_hex _⟩
  · rw [cacheGet_fst]
    rfl
  · rw [cacheGet_fst, cacheGet_fst]

/-- Counterexample to C7 as stated: two variable maps that are equal as
maps but differ in insertion order give base cache keys whose pre-hash
serializations differ, so the key encoding is not insensitive to map key
insertion order (JSON.stringify serializes members in property order). -/
theorem key_encoding_insertion_order_counterexample :
    fieldsEquivMaps [("a", Json.num 1), ("b", Json.num 2)] [("b", Json.num 2), ("a", Json.num 1)]
      = true
    ∧ cacheKeyPreimage (mkBaseCacheKey "q" none (Json.obj [("a", Json.num 1), ("b", Json.num 2)])
        Json.null) SessionMode.NoSession ≠
      cacheKeyPreimage (mkBaseCacheKey "q" none (Json.obj [("b", Json.num 2), ("a", Json.num 1)])
        Json.null) SessionMode.NoSession := by
  constructor
  · decide
  · decide

/-- C7 as amended: the key encoding is deterministic for equal BaseCacheKey
values, equal as ordered member lists (the same fields in the same
insertion order): such inputs produce the same serialized form and
therefore the same digest. -/
theorem key_encoding_deterministic (b1 b2 : List (String × Json)) (m : SessionMode)
    (h : b1 = b2) :
    cacheKeyPreimage b1 m = cacheKeyPreimage b2 m ∧ cacheKey b1 m = cacheKey b2 m := by
  subst h
  exact ⟨rfl, rfl⟩

/-- Witness for the amended C7 at a concrete base cache key. -/
theorem key_encoding_deterministic_witness :
    cacheKeyPreimage (mkBaseCacheKey "q" none (Json.obj []) Json.null) SessionMode.NoSession =
      cacheKeyPreimage (mkBaseCacheKey "q" none (Json.obj []) Json.null) SessionMode.NoSession
    ∧ cacheKey (mkBaseCacheKey "q" none (Json.obj []) Json.null) SessionMode.NoSession =
      cacheKey (mkBaseCacheKey "q" none (Json.obj []) Json.null) SessionMode.NoSession :=
  key_encoding_deterministic _ _ SessionMode.NoSession rfl

/-- C8: for an anonymous request with no hooks configured, printed document
of one field a, null operationName and empty variables, the read key of the
lookup is fqc: followed by the sha256 hex digest of exactly the documented
serialization. -/
theorem anonymous_request_read_key (store : Store) :
    (execute ⟨none, none⟩ initialRequestState ⟨"\x7b a \x7d", none, Json.obj []⟩ store).2.1 =
      [StoreOp.get ("fqc:" ++ sha256Hex
        "\x7b\"document\":\"\x7b a \x7d\",\"operationName\":null,\"variables\":\x7b\x7d,\"extra\":null,\"sessionMode\":0\x7d")] := by
  have h1 : (execute ⟨none, none⟩ initialRequestState
      ⟨"\x7b a \x7d", none, Json.obj []⟩ store).2.1 =
      [StoreOp.get ("fqc:" ++ cacheKey (mkBaseCacheKey "\x7b a \x7d" none (Json.obj []) Json.null)
        SessionMode.NoSession)] := by
    simp only [execute, initialRequestState]
    exact lookupPhase_none_ops store _
  rw [h1]
  have h2 : cacheKeyPreimage (mkBaseCacheKey "\x7b a \x7d" none (Json.obj []) Json.null)
      SessionMode.NoSession =
      "\x7b\"document\":\"\x7b a \x7d\",\"operationName\":null,\"variables\":\x7b\x7d,\"extra\":null,\"sessionMode\":0\x7d" := by
    decide
  rw [show cacheKey (mkBaseCacheKey "\x7b a \x7d" none (Json.obj []) Json.null)
      SessionMode.NoSession = sha256Hex (cacheKeyPreimage
      (mkBaseCacheKey "\x7b a \x7d" none (Json.obj []) Json.null) SessionMode.NoSession)
    from rfl, h2]

/-- C9: requestDidStart creates fresh per-request state (invokedHooks
false, sessionId null, extraCacheKeyData null), and one request cannot
affect another: processing any request leaves the store unchanged, so a
second request processed after it behaves exactly as it would against the
original store. -/
theorem per_request_state_isolation (options : PluginOptions) (store : Store)
    (r1 r2 : CachedRequest) (resp1 resp2 : GraphQLResponse) :
    initialRequestState = ⟨false, none, Json.null⟩
    ∧ (processRequest options store r1 resp1).finalStore = store
    ∧ processRequest options ((processRequest options store r1 resp1).finalStore) r2 resp2
        = processRequest options store r2 resp2 := by
  have hfs : (processRequest options store r1 resp1).finalStore = store := by
    simp only [processRequest]
    rw [willSendResponse_no_ops]
    exact applyOps_all_gets _ _ (execute_ops_gets options initialRequestState r1 store)
  exact ⟨rfl, hfs, by rw [hfs]⟩

/-- C10: the plugin never writes to the store: every operation of the
lookup phase is a read, and willSendResponse performs no store operation at
all. -/
theorem plugin_reads_only (options : PluginOptions) (st : RequestState) (req : CachedRequest)
    (store : Store) (invoked : Bool) (response : GraphQLResponse) :
    (execute options st req store).2.1.all StoreOp.isGet = true
    ∧ (willSendResponse invoked response).1 = [] :=
  ⟨execute_ops_gets options st req store, willSendResponse_no_ops invoked response⟩
